import Mathlib

/-!
Verification of the chunked-transcription core of the bilview repository
(src/core/transcriber.py) together with the task-status validation layer of
src/db/database.py and the Progress Ledger contract used by src/app.py.

Modelling conventions:
* Time is measured in integer milliseconds.  pydub represents an audio
  segment as a millisecond-indexed sequence, so the source's
  audio.duration_seconds equals durationMs / 1000 exactly; every quantity the
  source computes in (possibly fractional) seconds is embedded here scaled by
  1000 to stay in exact integer arithmetic.
* Python exceptions are embedded as Except String values; the message string
  plays the role of the exception.
* The recognizer (whisper model.transcribe) is an external collaborator; it
  is embedded as a function from the chunk index to an Except result for the
  chunked path, plus a single Except result for the whole-file path, since
  the audio segment handed to the recognizer is determined by the chunk plan.
* The progress callback and the recognizer invocations are recorded in an
  ordered action trace rather than performed as effects; the trace order is
  exactly the order in which the source performs the calls.
-/

/-- AudioSource: the facts about the input file that transcriber.py reads:
audio.duration_seconds (here durationMs / 1000, since pydub stores
milliseconds) and path.stat().st_size in bytes. -/
structure AudioSource where
  durationMs : Nat
  sizeBytes : Nat
deriving DecidableEq, Repr

/-- ChunkState: one entry of resume_from_chunks / of the Ledger's chunk list.
In the source it is a dict with keys "completed" and "text"; c.get("completed")
is embedded as the Bool field and c.get("text") truthiness as text being
non-empty. -/
structure ChunkState where
  completed : Bool
  text : String
deriving DecidableEq, Repr

/-- CallbackEvent: one invocation of progress_callback(current, total,
chunk_text, start_sec, end_sec).  The two time arguments are scaled to
milliseconds (the source passes seconds), hence startMs and endMs. -/
structure CallbackEvent where
  current : Nat
  total : Nat
  text : String
  startMs : Int
  endMs : Int
deriving DecidableEq, Repr

/-- DriverAction: one observable step of audio_to_text — a whole-file recognizer
call, a per-chunk recognizer call on chunk i, or a progress-callback
invocation. -/
inductive DriverAction where
  | fullCall : DriverAction
  | call : Nat → DriverAction
  | callback : CallbackEvent → DriverAction
deriving DecidableEq, Repr

/-- numChunks total step is the length of Python range(0, total, step) for
step > 0: the ceiling of total / step. -/
def numChunks (total step : Nat) : Nat :=
  (total + step - 1) / step

/-- pyRange total step models Python range(0, total, step) for step > 0: the
ascending multiples of step that are below total. -/
def pyRange (total step : Nat) : List Nat :=
  (List.range (numChunks total step)).map (fun k => k * step)

/-- splitAudio embeds _split_audio (src/core/transcriber.py): if
chunk_duration_sec <= 0 it returns the single whole slice, else it slices
audio[start : start + chunk_ms] for start in range(0, total_ms, chunk_ms).
Each slice is represented by its half-open millisecond interval; pydub slicing
clips the right end at the total length. -/
def splitAudio (totalMs : Nat) (chunkDurationSec : Int) : List (Nat × Nat) :=
  if chunkDurationSec ≤ 0 then
    [(0, totalMs)]
  else
    let chunkMs := chunkDurationSec.toNat * 1000
    (pyRange totalMs chunkMs).map (fun s => (s, min (s + chunkMs) totalMs))

/-- needs_chunking embeds the decision at src/core/transcriber.py lines 76-80:
audio.duration_seconds > chunk_duration_sec or st_size > limit_mb*1024*1024.
Over exact arithmetic, durationMs / 1000 > chunkSec iff
chunkSec * 1000 < durationMs. -/
def needs_chunking (durationMs sizeBytes : Nat) (chunkDurationSec : Int)
    (fileSizeLimitMb : Nat) : Bool :=
  decide (chunkDurationSec * 1000 < (durationMs : Int))
    || decide (fileSizeLimitMb * 1024 * 1024 < sizeBytes)

/-- pyStrip embeds Python str.strip() with no arguments: it removes leading
and trailing whitespace characters.  It is written by structural recursion
over the character list so that it evaluates on concrete inputs. -/
def pyStrip (s : String) : String :=
  ⟨(((s.data.dropWhile Char.isWhitespace).reverse).dropWhile
      Char.isWhitespace).reverse⟩

/-- evChunk is the callback event the source builds for chunk i in the
chunked loop: progress_callback(i+1, total, chunk_text, i*chunk_sec,
min((i+1)*chunk_sec, duration_seconds)), with times scaled to milliseconds
and chunk_text the stripped recognizer output f i. -/
def evChunk (chunkDurationSec : Int) (durationMs total : Nat)
    (f : Nat → String) (i : Nat) : CallbackEvent :=
  ⟨i + 1, total, pyStrip (f i), (i : Int) * chunkDurationSec * 1000,
    min (((i : Int) + 1) * chunkDurationSec * 1000) (durationMs : Int)⟩

/-- LoopResult: outcome of the chunked for-loop — the unwrapped recognizer
error if one was raised, the stripped texts appended so far, and the ordered
action trace. -/
structure LoopResult where
  err : Option String
  texts : List String
  actions : List DriverAction
deriving DecidableEq, Repr

/-- transcribeLoop embeds the for-loop of audio_to_text (lines 101-116): for
each remaining index i it calls the recognizer on segment i; on failure the
exception stops the loop; on success it strips the text, appends it and fires
the progress callback before moving on. -/
def transcribeLoop (rec : Nat → Except String String)
    (chunkDurationSec : Int) (durationMs total : Nat) :
    List Nat → LoopResult
  | [] => ⟨none, [], []⟩
  | i :: rest =>
    match rec i with
    | .error e => ⟨some e, [], [.call i]⟩
    | .ok raw =>
      let t := pyStrip raw
      let r := transcribeLoop rec chunkDurationSec durationMs total rest
      ⟨r.err, t :: r.texts,
        .call i :: .callback ⟨i + 1, total, t, (i : Int) * chunkDurationSec * 1000,
          min (((i : Int) + 1) * chunkDurationSec * 1000) (durationMs : Int)⟩ ::
          r.actions⟩

deriving instance DecidableEq for Except

/-- DriverResult: what one call of audio_to_text produces — the returned text
or the raised exception message, plus the ordered trace of recognizer calls
and callback invocations that happened before returning or raising. -/
structure DriverResult where
  outcome : Except String String
  actions : List DriverAction
deriving DecidableEq, Repr

/-- cbProj selects a progress-callback invocation out of a driver action. -/
def cbProj : DriverAction → Option CallbackEvent
  | .callback e => some e
  | _ => none

/-- callProj selects a per-chunk recognizer invocation out of a driver
action. -/
def callProj : DriverAction → Option Nat
  | .call i => some i
  | _ => none

/-- callbackTrace projects the progress-callback invocations, in order, out
of a driver run. -/
def callbackTrace (r : DriverResult) : List CallbackEvent :=
  r.actions.filterMap cbProj

/-- recognizerCalls projects the per-chunk recognizer invocations (the chunk
indices), in order, out of a driver run. -/
def recognizerCalls (r : DriverResult) : List Nat :=
  r.actions.filterMap callProj

/-- audio_to_text embeds audio_to_text (src/core/transcriber.py lines 38-120)
from the point where the file has been read (path exists, model loaded):
decide chunking; if not needed, one whole-file transcribe call and one
callback (1, 1, text, 0, duration); otherwise split, process resume data
(completed entries contribute their non-empty texts and their count becomes
start_index), run the loop over range(start_index, total_chunks), and join
the non-empty texts with single spaces, stripped.  The try/except wraps any
raised message with the RuntimeError text 音频转文字失败：. -/
def audio_to_text (audio : AudioSource) (recFull : Except String String)
    (rec : Nat → Except String String) (chunkDurationSec : Int)
    (fileSizeLimitMb : Nat) (resumeFromChunks : Option (List ChunkState)) :
    DriverResult :=
  if needs_chunking audio.durationMs audio.sizeBytes chunkDurationSec
      fileSizeLimitMb then
    let segments := splitAudio audio.durationMs chunkDurationSec
    let total := segments.length
    let resumeList := resumeFromChunks.getD []
    let completedChunks := resumeList.filter (fun c => c.completed)
    let resumedTexts :=
      (completedChunks.filter (fun c => c.text ≠ "")).map (fun c => c.text)
    let startIndex := completedChunks.length
    let loop := transcribeLoop rec chunkDurationSec audio.durationMs total
      (List.range' startIndex (total - startIndex))
    match loop.err with
    | some e => ⟨.error ("音频转文字失败：" ++ e), loop.actions⟩
    | none =>
      ⟨.ok (pyStrip (String.intercalate " "
          ((resumedTexts ++ loop.texts).filter (fun s => s ≠ "")))),
        loop.actions⟩
  else
    match recFull with
    | .error e => ⟨.error ("音频转文字失败：" ++ e), [.fullCall]⟩
    | .ok raw =>
      let t := pyStrip raw
      ⟨.ok t, [.fullCall, .callback ⟨1, 1, t, 0, (audio.durationMs : Int)⟩]⟩

/-! Planner lemmas: the arithmetic of pyRange / splitAudio. -/

/-- Membership bound for the chunk count: index i has a planned chunk exactly
when its start i * step lies below the total length. -/
lemma lt_numChunks_iff (D c : Nat) (hc : 0 < c) (i : Nat) :
    i < numChunks D c ↔ i * c < D := by
  unfold numChunks
  rw [Nat.lt_iff_add_one_le, Nat.le_div_iff_mul_le hc, add_one_mul]
  omega

/-- Closed form of splitAudio for a positive threshold. -/
lemma splitAudio_eq_map (D : Nat) (t : Int) (ht : 0 < t) :
    splitAudio D t = (List.range (numChunks D (t.toNat * 1000))).map
      (fun i => (i * (t.toNat * 1000),
        min (i * (t.toNat * 1000) + t.toNat * 1000) D)) := by
  rw [splitAudio, if_neg (by omega)]
  simp [pyRange, List.map_map, Function.comp]

/-- Length of the chunk plan for a positive threshold. -/
lemma splitAudio_length (D : Nat) (t : Int) (ht : 0 < t) :
    (splitAudio D t).length = numChunks D (t.toNat * 1000) := by
  rw [splitAudio_eq_map D t ht]
  simp

/-- Boundaries of chunk i of the plan for a positive threshold. -/
lemma splitAudio_get (D : Nat) (t : Int) (ht : 0 < t) (i : Nat)
    (h : i < (splitAudio D t).length) :
    (splitAudio D t).get ⟨i, h⟩ =
      (i * (t.toNat * 1000), min ((i + 1) * (t.toNat * 1000)) D) := by
  have h' := h
  rw [splitAudio_length D t ht] at h'
  simp only [List.get_eq_getElem]
  conv in splitAudio D t => rw [splitAudio_eq_map D t ht]
  rw [List.getElem_map]
  rw [List.getElem_range]
  rw [add_one_mul]

/-- C2: for every total duration D > 0 (milliseconds) and integer threshold
T > 0 (seconds, so T * 1000 milliseconds per chunk), the plan has exactly
ceil(D / (T*1000)) chunks; chunk i is the half-open interval
[i*T*1000, min((i+1)*T*1000, D)); the intervals cover [0, D) with no gaps and
no overlaps; every chunk spans at most T*1000 with only the final chunk
possibly shorter; the last interval ends at D; and no chunk is ever
zero-length (in particular no trailing zero-length chunk when T divides D). -/
theorem chunk_plan_count_and_coverage (D : Nat) (t : Int)
    (hD : 0 < D) (ht : 0 < t) :
    ((splitAudio D t).length
        = (D + t.toNat * 1000 - 1) / (t.toNat * 1000)) ∧
    (∀ i (h : i < (splitAudio D t).length),
      (splitAudio D t).get ⟨i, h⟩ =
        (i * (t.toNat * 1000), min ((i + 1) * (t.toNat * 1000)) D)) ∧
    (∀ x, x < D → ∃ i, ∃ h : i < (splitAudio D t).length,
      ((splitAudio D t).get ⟨i, h⟩).1 ≤ x ∧
        x < ((splitAudio D t).get ⟨i, h⟩).2) ∧
    (∀ i j (hi : i < (splitAudio D t).length)
        (hj : j < (splitAudio D t).length) (x : Nat),
      ((splitAudio D t).get ⟨i, hi⟩).1 ≤ x →
      x < ((splitAudio D t).get ⟨i, hi⟩).2 →
      ((splitAudio D t).get ⟨j, hj⟩).1 ≤ x →
      x < ((splitAudio D t).get ⟨j, hj⟩).2 → i = j) ∧
    (∀ i (h : i < (splitAudio D t).length),
      ((splitAudio D t).get ⟨i, h⟩).2 - ((splitAudio D t).get ⟨i, h⟩).1
        ≤ t.toNat * 1000) ∧
    (∀ i (h : i < (splitAudio D t).length), i + 1 < (splitAudio D t).length →
      ((splitAudio D t).get ⟨i, h⟩).2 - ((splitAudio D t).get ⟨i, h⟩).1
        = t.toNat * 1000) ∧
    (∀ hne : splitAudio D t ≠ [], ((splitAudio D t).getLast hne).2 = D) ∧
    (∀ i (h : i < (splitAudio D t).length),
      ((splitAudio D t).get ⟨i, h⟩).1 < ((splitAudio D t).get ⟨i, h⟩).2) := by
  have hc : 0 < t.toNat * 1000 := by
    have : 0 < t.toNat := by omega
    omega
  have hlen := splitAudio_length D t ht
  refine ⟨?_, splitAudio_get D t ht, ?_, ?_, ?_, ?_, ?_, ?_⟩
  · rw [hlen]
    rfl
  · intro x hx
    have hstart : (x / (t.toNat * 1000)) * (t.toNat * 1000) ≤ x :=
      Nat.div_mul_le_self x (t.toNat * 1000)
    have hbound : x / (t.toNat * 1000) < (splitAudio D t).length := by
      rw [hlen, lt_numChunks_iff D (t.toNat * 1000) hc]
      omega
    refine ⟨x / (t.toNat * 1000), hbound, ?_⟩
    rw [splitAudio_get D t ht (x / (t.toNat * 1000)) hbound]
    have hdm := Nat.div_add_mod x (t.toNat * 1000)
    have hml := Nat.mod_lt x hc
    have hcm : (t.toNat * 1000) * (x / (t.toNat * 1000))
        = (x / (t.toNat * 1000)) * (t.toNat * 1000) := Nat.mul_comm _ _
    rw [add_one_mul]
    dsimp only
    omega
  · intro i j hi hj x h1 h2 h3 h4
    rw [splitAudio_get D t ht i hi] at h1 h2
    rw [splitAudio_get D t ht j hj] at h3 h4
    dsimp only at h1 h2 h3 h4
    rw [add_one_mul] at h2 h4
    rcases Nat.lt_trichotomy i j with hlt | heq | hgt
    · have hm : (i + 1) * (t.toNat * 1000) ≤ j * (t.toNat * 1000) :=
        Nat.mul_le_mul_right _ hlt
      rw [add_one_mul] at hm
      omega
    · exact heq
    · have hm : (j + 1) * (t.toNat * 1000) ≤ i * (t.toNat * 1000) :=
        Nat.mul_le_mul_right _ hgt
      rw [add_one_mul] at hm
      omega
  · intro i h
    rw [splitAudio_get D t ht i h]
    dsimp only
    rw [add_one_mul]
    omega
  · intro i h hnext
    have hlt : (i + 1) * (t.toNat * 1000) < D := by
      have h' := hnext
      rw [hlen, lt_numChunks_iff D (t.toNat * 1000) hc] at h'
      exact h'
    rw [splitAudio_get D t ht i h]
    dsimp only
    rw [add_one_mul] at hlt ⊢
    omega
  · intro hne
    have hpos : 0 < (splitAudio D t).length := List.length_pos.mpr hne
    have hlast := splitAudio_get D t ht ((splitAudio D t).length - 1)
      (by omega)
    rw [List.get_eq_getElem] at hlast
    rw [List.getLast_eq_getElem, hlast]
    dsimp only
    have hub : ¬ ((splitAudio D t).length * (t.toNat * 1000) < D) := by
      intro hcon
      have := (lt_numChunks_iff D (t.toNat * 1000) hc
        (splitAudio D t).length).mpr hcon
      omega
    have hn1 : (splitAudio D t).length - 1 + 1 = (splitAudio D t).length := by
      omega
    rw [hn1]
    omega
  · intro i h
    have hio : i * (t.toNat * 1000) < D := by
      have h' := h
      rw [hlen, lt_numChunks_iff D (t.toNat * 1000) hc] at h'
      exact h'
    rw [splitAudio_get D t ht i h]
    dsimp only
    rw [add_one_mul]
    omega

/-- Witness for C2 at D = 920000 ms, T = 300 s: the plan from the spec's
concrete scenario B has exactly 4 chunks. -/
theorem chunk_plan_count_and_coverage_witness :
    (splitAudio 920000 300).length = 4 :=
  (chunk_plan_count_and_coverage 920000 300 (by decide) (by decide)).1.trans
    (by decide)

/-- C8: the chunk planner is deterministic — identical planning inputs yield
identical chunk boundary sequences (splitAudio is a pure function of the
total duration and the threshold and reads no other state). -/
theorem plan_chunks_deterministic (D₁ D₂ : Nat) (t₁ t₂ : Int)
    (hD : D₁ = D₂) (ht : t₁ = t₂) :
    splitAudio D₁ t₁ = splitAudio D₂ t₂ := by
  rw [hD, ht]

/-- Witness for C8 at the spec's scenario-B planning inputs. -/
theorem plan_chunks_deterministic_witness :
    splitAudio 920000 300 = splitAudio 920000 300 :=
  plan_chunks_deterministic 920000 920000 300 300 rfl rfl

/-- C9: defensive fallback — for a non-positive chunk threshold the planner
returns the single chunk spanning the whole duration. -/
theorem plan_chunks_fallback_single (D : Nat) (t : Int) (ht : t ≤ 0) :
    splitAudio D t = [(0, D)] := by
  rw [splitAudio, if_pos ht]

/-- Witness for C9 at D = 920000 ms and threshold -5 s. -/
theorem plan_chunks_fallback_single_witness :
    splitAudio 920000 (-5) = [(0, 920000)] :=
  plan_chunks_fallback_single 920000 (-5) (by decide)

/-! Driver lemmas. -/

/-- Loop behaviour when the recognizer succeeds on every processed index. -/
lemma transcribeLoop_ok_of (rec : Nat → Except String String)
    (f : Nat → String) (t : Int) (D total : Nat) (l : List Nat)
    (hok : ∀ j ∈ l, rec j = .ok (f j)) :
    transcribeLoop rec t D total l =
      ⟨none, l.map (fun i => pyStrip (f i)),
        l.flatMap (fun i => [.call i, .callback (evChunk t D total f i)])⟩ := by
  induction l with
  | nil => rfl
  | cons i rest ih =>
    have hi := hok i (List.mem_cons_self i rest)
    have hrest : ∀ j ∈ rest, rec j = .ok (f j) :=
      fun j hj => hok j (List.mem_cons_of_mem i hj)
    simp [transcribeLoop, hi, ih hrest, evChunk]

/-- Loop behaviour when the recognizer succeeds on a prefix and then raises:
the loop stops at the failing index, which is called but never reported. -/
lemma transcribeLoop_err_of (rec : Nat → Except String String)
    (f : Nat → String) (t : Int) (D total : Nat) (l₁ : List Nat) (i : Nat)
    (e : String) (l₂ : List Nat)
    (hok : ∀ j ∈ l₁, rec j = .ok (f j)) (herr : rec i = .error e) :
    transcribeLoop rec t D total (l₁ ++ i :: l₂) =
      ⟨some e, l₁.map (fun j => pyStrip (f j)),
        l₁.flatMap (fun j => [.call j, .callback (evChunk t D total f j)])
          ++ [.call i]⟩ := by
  induction l₁ with
  | nil => simp [transcribeLoop, herr]
  | cons j rest ih =>
    have hj := hok j (List.mem_cons_self j rest)
    have hrest : ∀ a ∈ rest, rec a = .ok (f a) :=
      fun a ha => hok a (List.mem_cons_of_mem j ha)
    simp [transcribeLoop, hj, ih hrest, evChunk]

/-- Projecting the recognizer calls out of a loop trace recovers the index
list. -/
lemma filterMap_callProj_flat (g : Nat → CallbackEvent) (l : List Nat) :
    (l.flatMap (fun i => [DriverAction.call i, .callback (g i)])).filterMap
        callProj = l := by
  induction l with
  | nil => rfl
  | cons i rest ih =>
    rw [List.flatMap_cons, List.filterMap_append, ih]
    rfl

/-- Projecting the callback invocations out of a loop trace yields one event
per index, in order. -/
lemma filterMap_cbProj_flat (g : Nat → CallbackEvent) (l : List Nat) :
    (l.flatMap (fun i => [DriverAction.call i, .callback (g i)])).filterMap
        cbProj = l.map g := by
  induction l with
  | nil => rfl
  | cons i rest ih =>
    rw [List.flatMap_cons, List.filterMap_append, ih]
    rfl

/-- Unfolding of audio_to_text on the chunked path with an always-succeeding
recognizer. -/
lemma audio_to_text_chunked_ok (a : AudioSource) (rf : Except String String)
    (f : Nat → String) (t : Int) (m : Nat)
    (resume : Option (List ChunkState))
    (hneeds : needs_chunking a.durationMs a.sizeBytes t m = true) :
    audio_to_text a rf (fun i => .ok (f i)) t m resume =
      ⟨.ok (pyStrip (String.intercalate " "
          (((((resume.getD []).filter (fun c => c.completed)).filter
              (fun c => c.text ≠ "")).map (fun c => c.text)
            ++ (List.range'
                (((resume.getD []).filter (fun c => c.completed)).length)
                ((splitAudio a.durationMs t).length
                  - ((resume.getD []).filter (fun c => c.completed)).length)).map
              (fun i => pyStrip (f i))).filter (fun s => s ≠ "")))),
        (List.range'
            (((resume.getD []).filter (fun c => c.completed)).length)
            ((splitAudio a.durationMs t).length
              - ((resume.getD []).filter (fun c => c.completed)).length)).flatMap
          (fun i => [.call i,
            .callback (evChunk t a.durationMs
              (splitAudio a.durationMs t).length f i)])⟩ := by
  unfold audio_to_text
  rw [if_pos hneeds]
  dsimp only
  rw [transcribeLoop_ok_of (fun i => Except.ok (f i)) f t a.durationMs
    (splitAudio a.durationMs t).length _ (fun j _ => rfl)]

/-- Decomposition of the index range at a failing position. -/
lemma range'_zero_split (n i : Nat) (hi : i < n) :
    List.range' 0 n = List.range' 0 i ++ i :: List.range' (i + 1) (n - i - 1) := by
  have h1 : List.range' i (n - i) = i :: List.range' (i + 1) (n - i - 1) := by
    conv_lhs => rw [(by omega : n - i = (n - i - 1) + 1)]
    rw [List.range'_succ]
  rw [← h1]
  have h2 := List.range'_append 0 i (n - i) 1
  rw [Nat.one_mul, Nat.zero_add, (by omega : (n - i) + i = n)] at h2
  exact h2.symm

/-- Unfolding of audio_to_text on the chunked path, no resume data, when the
recognizer succeeds on chunks 0..i-1 and raises on chunk i. -/
lemma audio_to_text_chunked_err (a : AudioSource) (rf : Except String String)
    (rec : Nat → Except String String) (f : Nat → String) (t : Int) (m : Nat)
    (i : Nat) (e : String)
    (hneeds : needs_chunking a.durationMs a.sizeBytes t m = true)
    (hi : i < (splitAudio a.durationMs t).length)
    (hok : ∀ j, j < i → rec j = .ok (f j))
    (herr : rec i = .error e) :
    audio_to_text a rf rec t m none =
      ⟨.error ("音频转文字失败：" ++ e),
        (List.range' 0 i).flatMap
          (fun j => [.call j,
            .callback (evChunk t a.durationMs
              (splitAudio a.durationMs t).length f j)]) ++ [.call i]⟩ := by
  unfold audio_to_text
  rw [if_pos hneeds]
  dsimp only
  simp only [Option.getD_none, List.filter_nil, List.length_nil, Nat.sub_zero]
  rw [range'_zero_split (splitAudio a.durationMs t).length i hi]
  rw [transcribeLoop_err_of rec f t a.durationMs
    (splitAudio a.durationMs t).length (List.range' 0 i) i e
    (List.range' (i + 1) ((splitAudio a.durationMs t).length - i - 1))
    (by
      intro j hj
      rw [List.mem_range'] at hj
      obtain ⟨k, hk, rfl⟩ := hj
      exact hok _ (by omega))
    herr]

/-- Unfolding of audio_to_text on the unchunked path when the whole-file
transcription succeeds. -/
lemma audio_to_text_unchunked_ok (a : AudioSource) (raw : String)
    (rec : Nat → Except String String) (t : Int) (m : Nat)
    (resume : Option (List ChunkState))
    (hn : needs_chunking a.durationMs a.sizeBytes t m = false) :
    audio_to_text a (.ok raw) rec t m resume =
      ⟨.ok (pyStrip raw),
        [.fullCall, .callback ⟨1, 1, pyStrip raw, 0, (a.durationMs : Int)⟩]⟩ := by
  unfold audio_to_text
  rw [if_neg (by simp [hn])]

/-- Unfolding of audio_to_text on the unchunked path when the whole-file
transcription raises. -/
lemma audio_to_text_unchunked_err (a : AudioSource) (e : String)
    (rec : Nat → Except String String) (t : Int) (m : Nat)
    (resume : Option (List ChunkState))
    (hn : needs_chunking a.durationMs a.sizeBytes t m = false) :
    audio_to_text a (.error e) rec t m resume =
      ⟨.error ("音频转文字失败：" ++ e), [.fullCall]⟩ := by
  unfold audio_to_text
  rw [if_neg (by simp [hn])]

/-- Whatever the loop does, its action trace never contains a whole-file
recognizer call. -/
lemma fullCall_not_mem_loop (rec : Nat → Except String String) (t : Int)
    (D total : Nat) (l : List Nat) :
    DriverAction.fullCall ∉ (transcribeLoop rec t D total l).actions := by
  induction l with
  | nil => simp [transcribeLoop]
  | cons i rest ih =>
    cases h : rec i with
    | error e => simp [transcribeLoop, h]
    | ok raw => simp [transcribeLoop, h, ih]

/-- The loop on a non-empty index list always calls the per-chunk
recognizer at least once. -/
lemma loop_has_call (rec : Nat → Except String String) (t : Int)
    (D total : Nat) (i : Nat) (rest : List Nat) :
    ∃ j, DriverAction.call j ∈ (transcribeLoop rec t D total (i :: rest)).actions := by
  refine ⟨i, ?_⟩
  cases h : rec i with
  | error e => simp [transcribeLoop, h]
  | ok raw => simp [transcribeLoop, h]

/-- On the chunked path the driver's action trace is exactly the loop's
action trace, whether the loop failed or not. -/
lemma audio_to_text_chunked_actions (a : AudioSource)
    (rf : Except String String) (rec : Nat → Except String String) (t : Int)
    (m : Nat) (resume : Option (List ChunkState))
    (hneeds : needs_chunking a.durationMs a.sizeBytes t m = true) :
    (audio_to_text a rf rec t m resume).actions =
      (transcribeLoop rec t a.durationMs (splitAudio a.durationMs t).length
        (List.range'
          (((resume.getD []).filter (fun c => c.completed)).length)
          ((splitAudio a.durationMs t).length
            - ((resume.getD []).filter (fun c => c.completed)).length))).actions := by
  unfold audio_to_text
  rw [if_pos hneeds]
  dsimp only
  cases hE : (transcribeLoop rec t a.durationMs
      (splitAudio a.durationMs t).length
      (List.range'
        (((resume.getD []).filter (fun c => c.completed)).length)
        ((splitAudio a.durationMs t).length
          - ((resume.getD []).filter (fun c => c.completed)).length))).err with
  | some e => simp [hE]
  | none => simp [hE]

/-- The plan of a positive-duration audio is never empty. -/
lemma splitAudio_length_pos (D : Nat) (t : Int) (hD : 0 < D) :
    0 < (splitAudio D t).length := by
  by_cases ht : t ≤ 0
  · rw [splitAudio, if_pos ht]
    simp
  · have ht' : 0 < t := by omega
    have hc : 0 < t.toNat * 1000 := by
      have : 0 < t.toNat := by omega
      omega
    rw [splitAudio_length D t ht']
    have := (lt_numChunks_iff D (t.toNat * 1000) hc 0).mpr (by omega)
    omega

/-- C1: resume correctness — when the audio needs chunking into n chunks and
resume_from_chunks has length n with completed entries exactly the prefix
0..k-1 (each with non-empty text), audio_to_text calls the recognizer exactly
once per chunk k..n-1, in increasing order, never on 0..k-1, and returns the
single-space join of the non-empty chunk texts (the k resumed texts followed
by the stripped new ones), stripped of surrounding whitespace. -/
theorem resume_correctness (a : AudioSource) (rf : Except String String)
    (f : Nat → String) (t : Int) (m : Nat) (pre post : List ChunkState)
    (hneeds : needs_chunking a.durationMs a.sizeBytes t m = true)
    (hlen : pre.length + post.length = (splitAudio a.durationMs t).length)
    (hpre : ∀ cs ∈ pre, cs.completed = true ∧ cs.text ≠ "")
    (hpost : ∀ cs ∈ post, cs.completed = false) :
    recognizerCalls (audio_to_text a rf (fun i => .ok (f i)) t m
        (some (pre ++ post)))
      = List.range' pre.length
          ((splitAudio a.durationMs t).length - pre.length) ∧
    (audio_to_text a rf (fun i => .ok (f i)) t m (some (pre ++ post))).outcome
      = .ok (pyStrip (String.intercalate " "
          ((pre.map (fun cs => cs.text)
            ++ (List.range' pre.length
                ((splitAudio a.durationMs t).length - pre.length)).map
              (fun i => pyStrip (f i))).filter (fun s => s ≠ "")))) := by
  have hfilter : (pre ++ post).filter (fun c => c.completed) = pre := by
    rw [List.filter_append,
      List.filter_eq_self.mpr (fun c hc => (hpre c hc).1),
      List.filter_eq_nil_iff.mpr (fun c hc => by simp [hpost c hc]),
      List.append_nil]
  have hfilter2 : pre.filter (fun c => c.text ≠ "") = pre :=
    List.filter_eq_self.mpr (fun c hc => by simp [(hpre c hc).2])
  have h := audio_to_text_chunked_ok a rf f t m (some (pre ++ post)) hneeds
  rw [Option.getD_some, hfilter, hfilter2] at h
  constructor
  · rw [h]
    unfold recognizerCalls
    dsimp only
    exact filterMap_callProj_flat _ _
  · rw [h]

/-- Witness for C1: spec scenario C shape — 3 chunks, chunks 0 and 1 resumed
with texts a and b, only chunk 2 transcribed, transcript a b c. -/
theorem resume_correctness_witness :
    recognizerCalls (audio_to_text ⟨900000, 0⟩ (.ok "") (fun _ => .ok "c")
        300 25 (some [⟨true, "a"⟩, ⟨true, "b"⟩, ⟨false, ""⟩])) = [2] ∧
    (audio_to_text ⟨900000, 0⟩ (.ok "") (fun _ => .ok "c") 300 25
        (some [⟨true, "a"⟩, ⟨true, "b"⟩, ⟨false, ""⟩])).outcome
      = .ok "a b c" := by
  have h := resume_correctness ⟨900000, 0⟩ (.ok "") (fun _ => "c") 300 25
    [⟨true, "a"⟩, ⟨true, "b"⟩] [⟨false, ""⟩]
    (by decide) (by decide) (by decide) (by decide)
  exact ⟨h.1.trans (by decide), h.2.trans (by decide)⟩

/-- Counterexample for C3: a resume list of length 2 against a freshly
computed 3-chunk plan is not rejected — audio_to_text proceeds and returns a
transcript instead of failing fast. -/
theorem resume_mismatch_cex :
    (([⟨true, "a"⟩, ⟨true, "b"⟩] : List ChunkState)).length
        ≠ (splitAudio 900000 300).length ∧
    (audio_to_text ⟨900000, 0⟩ (.ok "") (fun _ => .ok "x") 300 25
        (some [⟨true, "a"⟩, ⟨true, "b"⟩])).outcome = .ok "a b x" := by
  constructor
  · decide
  · decide

/-- C3 amended: audio_to_text performs no resume-length validation — when
resume_from_chunks is supplied with a length different from the freshly
computed total_chunks, it proceeds without error, setting start_index to the
number of completed entries and transcribing the remaining planned chunks. -/
theorem resume_mismatch_no_validation (a : AudioSource)
    (rf : Except String String) (f : Nat → String) (t : Int) (m : Nat)
    (resume : List ChunkState)
    (hneeds : needs_chunking a.durationMs a.sizeBytes t m = true)
    (hmis : resume.length ≠ (splitAudio a.durationMs t).length) :
    ((audio_to_text a rf (fun i => .ok (f i)) t m (some resume)).outcome).isOk
        = true ∧
    recognizerCalls (audio_to_text a rf (fun i => .ok (f i)) t m (some resume))
      = List.range' ((resume.filter (fun c => c.completed)).length)
          ((splitAudio a.durationMs t).length
            - (resume.filter (fun c => c.completed)).length) := by
  have h := audio_to_text_chunked_ok a rf f t m (some resume) hneeds
  rw [Option.getD_some] at h
  constructor
  · rw [h]
    rfl
  · rw [h]
    unfold recognizerCalls
    dsimp only
    exact filterMap_callProj_flat _ _

/-- Witness for the amended C3 at the counterexample's input. -/
theorem resume_mismatch_no_validation_witness :
    ((audio_to_text ⟨900000, 0⟩ (.ok "") (fun _ => .ok "x") 300 25
        (some [⟨true, "a"⟩, ⟨true, "b"⟩])).outcome).isOk = true ∧
    recognizerCalls (audio_to_text ⟨900000, 0⟩ (.ok "") (fun _ => .ok "x")
        300 25 (some [⟨true, "a"⟩, ⟨true, "b"⟩])) = [2] := by
  have h := resume_mismatch_no_validation ⟨900000, 0⟩ (.ok "") (fun _ => "x")
    300 25 [⟨true, "a"⟩, ⟨true, "b"⟩] (by decide) (by decide)
  exact ⟨h.1, h.2.trans (by decide)⟩

/-- Counterexample for C4: the driver does catch the recognizer's exception —
what propagates is a RuntimeError wrapping it, not the original: with the
recognizer raising boom on chunk 0, the raised message is the wrapped one and
differs from boom. -/
theorem recognizer_error_wrapped_cex :
    (audio_to_text ⟨900000, 0⟩ (.ok "") (fun _ => .error "boom") 300 25
        none).outcome = .error "音频转文字失败：boom" ∧
    (audio_to_text ⟨900000, 0⟩ (.ok "") (fun _ => .error "boom") 300 25
        none).outcome ≠ .error "boom" := by
  constructor
  · decide
  · decide

/-- C4 amended: if the recognizer raises on chunk i (having succeeded on all
earlier chunks), audio_to_text raises in turn — the error, wrapped in the
RuntimeError message, propagates upward — and by that point the progress
callback has been invoked exactly once for each chunk 0..i-1; the failed
chunk is called once but never reported via the callback. -/
theorem failure_propagation_wrapped (a : AudioSource)
    (rf : Except String String) (rec : Nat → Except String String)
    (f : Nat → String) (t : Int) (m : Nat) (i : Nat) (e : String)
    (hneeds : needs_chunking a.durationMs a.sizeBytes t m = true)
    (hi : i < (splitAudio a.durationMs t).length)
    (hok : ∀ j, j < i → rec j = .ok (f j))
    (herr : rec i = .error e) :
    (audio_to_text a rf rec t m none).outcome
        = .error ("音频转文字失败：" ++ e) ∧
    callbackTrace (audio_to_text a rf rec t m none)
      = (List.range' 0 i).map
          (evChunk t a.durationMs (splitAudio a.durationMs t).length f) ∧
    recognizerCalls (audio_to_text a rf rec t m none)
      = List.range' 0 (i + 1) := by
  have h := audio_to_text_chunked_err a rf rec f t m i e hneeds hi hok herr
  refine ⟨by rw [h], ?_, ?_⟩
  · rw [h]
    unfold callbackTrace
    dsimp only
    rw [List.filterMap_append, filterMap_cbProj_flat]
    simp [cbProj]
  · rw [h]
    unfold recognizerCalls
    dsimp only
    rw [List.filterMap_append, filterMap_callProj_flat, List.range'_concat]
    simp [callProj]

/-- Witness for the amended C4: failure on chunk 2 of 3: callbacks fired for
chunks 1 and 2 (indices 0 and 1), recognizer called on 0, 1, 2, and the
wrapped error is raised. -/
theorem failure_propagation_wrapped_witness :
    (audio_to_text ⟨900000, 0⟩ (.ok "")
        (fun j => if j < 2 then .ok "y" else .error "boom") 300 25
        none).outcome = .error "音频转文字失败：boom" ∧
    callbackTrace (audio_to_text ⟨900000, 0⟩ (.ok "")
        (fun j => if j < 2 then .ok "y" else .error "boom") 300 25 none)
      = [⟨1, 3, "y", 0, 300000⟩, ⟨2, 3, "y", 300000, 600000⟩] ∧
    recognizerCalls (audio_to_text ⟨900000, 0⟩ (.ok "")
        (fun j => if j < 2 then .ok "y" else .error "boom") 300 25 none)
      = [0, 1, 2] := by
  have h := failure_propagation_wrapped ⟨900000, 0⟩ (.ok "")
    (fun j => if j < 2 then .ok "y" else .error "boom") (fun _ => "y")
    300 25 2 "boom" (by decide) (by decide)
    (fun j hj => by simp [hj]) (by decide)
  exact ⟨h.1.trans (by decide), h.2.1.trans (by decide),
    h.2.2.trans (by decide)⟩

/-- C5: callback contract — on the chunked path with a succeeding recognizer
the action trace interleaves, for each newly completed chunk in increasing
index order, the recognizer call immediately followed by its callback
(i+1, total, text, start, end), so the callback fires exactly once per chunk
and synchronously before the next chunk begins; on the unchunked path exactly
one callback (1, 1, text, 0, duration) fires. -/
theorem callback_contract (a : AudioSource) (rf : Except String String)
    (f : Nat → String) (raw : String) (t : Int) (m : Nat)
    (resume : Option (List ChunkState)) :
    (needs_chunking a.durationMs a.sizeBytes t m = true →
      (audio_to_text a rf (fun i => .ok (f i)) t m resume).actions
        = (List.range'
            (((resume.getD []).filter (fun c => c.completed)).length)
            ((splitAudio a.durationMs t).length
              - ((resume.getD []).filter (fun c => c.completed)).length)).flatMap
          (fun i => [.call i, .callback (evChunk t a.durationMs
            (splitAudio a.durationMs t).length f i)]) ∧
      callbackTrace (audio_to_text a rf (fun i => .ok (f i)) t m resume)
        = (List.range'
            (((resume.getD []).filter (fun c => c.completed)).length)
            ((splitAudio a.durationMs t).length
              - ((resume.getD []).filter (fun c => c.completed)).length)).map
          (evChunk t a.durationMs (splitAudio a.durationMs t).length f)) ∧
    (needs_chunking a.durationMs a.sizeBytes t m = false →
      callbackTrace (audio_to_text a (.ok raw) (fun i => .ok (f i)) t m resume)
        = [⟨1, 1, pyStrip raw, 0, (a.durationMs : Int)⟩] ∧
      (audio_to_text a (.ok raw) (fun i => .ok (f i)) t m resume).outcome
        = .ok (pyStrip raw)) := by
  constructor
  · intro hneeds
    have h := audio_to_text_chunked_ok a rf f t m resume hneeds
    constructor
    · rw [h]
    · rw [h]
      unfold callbackTrace
      dsimp only
      exact filterMap_cbProj_flat _ _
  · intro hn
    have h := audio_to_text_unchunked_ok a raw (fun i => .ok (f i)) t m
      resume hn
    constructor
    · rw [h]
      rfl
    · rw [h]

/-- Witness for C5: spec scenario D — a 15-second audio below both
thresholds gets exactly one callback (1, 1, text, 0, duration). -/
theorem callback_contract_witness :
    callbackTrace (audio_to_text ⟨15000, 0⟩ (.ok " hello ") (fun _ => .ok "x")
        300 25 none) = [⟨1, 1, "hello", 0, 15000⟩] :=
  (((callback_contract ⟨15000, 0⟩ (.ok "ignored") (fun _ => "x") " hello "
      300 25 none).2 (by decide)).1).trans (by decide)

/-- C6: the driver chunks the audio iff duration exceeds the duration
threshold or the byte size exceeds the size threshold (a logical OR):
needs_chunking holds exactly on that disjunction, the whole-file recognizer
call happens exactly when chunking is off, and (for positive duration, fresh
run) a per-chunk recognizer call happens exactly when chunking is on. -/
theorem chunking_decision_or (a : AudioSource) (rf : Except String String)
    (rec : Nat → Except String String) (t : Int) (m : Nat)
    (resume : Option (List ChunkState)) :
    (needs_chunking a.durationMs a.sizeBytes t m = true
      ↔ (t * 1000 < (a.durationMs : Int) ∨ m * 1024 * 1024 < a.sizeBytes)) ∧
    ((DriverAction.fullCall ∈ (audio_to_text a rf rec t m resume).actions)
      ↔ needs_chunking a.durationMs a.sizeBytes t m = false) ∧
    (0 < a.durationMs →
      ((∃ i, DriverAction.call i ∈ (audio_to_text a rf rec t m none).actions)
        ↔ needs_chunking a.durationMs a.sizeBytes t m = true)) := by
  refine ⟨?_, ?_, ?_⟩
  · simp [needs_chunking]
  · cases hn : needs_chunking a.durationMs a.sizeBytes t m with
    | true =>
      rw [audio_to_text_chunked_actions a rf rec t m resume hn]
      simp [fullCall_not_mem_loop]
    | false =>
      cases rf with
      | ok raw =>
        rw [audio_to_text_unchunked_ok a raw rec t m resume hn]
        simp
      | error e =>
        rw [audio_to_text_unchunked_err a e rec t m resume hn]
        simp
  · intro hpos
    cases hn : needs_chunking a.durationMs a.sizeBytes t m with
    | true =>
      rw [audio_to_text_chunked_actions a rf rec t m none hn]
      simp only [Option.getD_none, List.filter_nil, List.length_nil,
        Nat.sub_zero]
      have hlp := splitAudio_length_pos a.durationMs t hpos
      constructor
      · intro _
        trivial
      · intro _
        have hsplit : List.range' 0 (splitAudio a.durationMs t).length
            = 0 :: List.range' 1 ((splitAudio a.durationMs t).length - 1) := by
          conv_lhs => rw [(by omega : (splitAudio a.durationMs t).length
            = ((splitAudio a.durationMs t).length - 1) + 1)]
          rw [List.range'_succ]
        rw [hsplit]
        exact loop_has_call rec t a.durationMs
          (splitAudio a.durationMs t).length 0
          (List.range' 1 ((splitAudio a.durationMs t).length - 1))
    | false =>
      cases rf with
      | ok raw =>
        rw [audio_to_text_unchunked_ok a raw rec t m none hn]
        simp
      | error e =>
        rw [audio_to_text_unchunked_err a e rec t m none hn]
        simp

/-- Witness for C6: the 900-second audio exceeds the 300-second threshold, so
chunking is on and a per-chunk recognizer call occurs. -/
theorem chunking_decision_or_witness :
    needs_chunking 900000 0 300 25 = true ∧
    (∃ i, DriverAction.call i ∈ (audio_to_text ⟨900000, 0⟩ (.ok "")
        (fun _ => .ok "x") 300 25 none).actions) := by
  refine ⟨by decide, ?_⟩
  exact ((chunking_decision_or ⟨900000, 0⟩ (.ok "") (fun _ => .ok "x") 300 25
    none).2.2 (by decide)).mpr (by decide)

/-- Modelled from the spec: assemble_partial_transcript, the Ledger operation
assemble_partial of src/db/database.py — its body is missing from src/
(src/app.py and the tests import it from db.database), so it is defined from
the spec's words: join, in index order, the text field of every chunk with
completed = true, skipping incomplete or empty ones, with a single-space
separator, trimmed; empty string when none is completed. -/
def assemble_partial_transcript (chunks : List ChunkState) : String :=
  pyStrip (String.intercalate " "
    (((chunks.filter (fun c => c.completed)).map (fun c => c.text)).filter
      (fun s => s ≠ "")))

/-- C7: partial assembly — assemble_partial_transcript returns the empty
string when no chunk is completed, is unaffected by chunks that are not
completed, and on a completed prefix followed by incomplete chunks returns
exactly the space-joined non-empty texts of the prefix, trimmed. -/
theorem assemble_partial_transcript_correct (chunks pre post : List ChunkState) :
    ((∀ c ∈ chunks, c.completed = false) →
      assemble_partial_transcript chunks = "") ∧
    (assemble_partial_transcript chunks
      = assemble_partial_transcript (chunks.filter (fun c => c.completed))) ∧
    ((∀ c ∈ pre, c.completed = true) → (∀ c ∈ post, c.completed = false) →
      assemble_partial_transcript (pre ++ post)
        = pyStrip (String.intercalate " "
            ((pre.map (fun c => c.text)).filter (fun s => s ≠ "")))) := by
  refine ⟨?_, ?_, ?_⟩
  · intro h
    unfold assemble_partial_transcript
    have hfe : chunks.filter (fun c => c.completed) = [] :=
      List.filter_eq_nil_iff.mpr (fun c hc => by simp [h c hc])
    rw [hfe]
    rfl
  · unfold assemble_partial_transcript
    rw [List.filter_filter]
    simp [Bool.and_self]
  · intro h1 h2
    unfold assemble_partial_transcript
    have hpre : pre.filter (fun c => c.completed) = pre :=
      List.filter_eq_self.mpr h1
    have hpost : post.filter (fun c => c.completed) = [] :=
      List.filter_eq_nil_iff.mpr (fun c hc => by simp [h2 c hc])
    rw [List.filter_append, hpre, hpost, List.append_nil]

/-- Witness for C7: the repository test scenario — 3 completed chunks of 5,
partial transcript 文本1 文本2 文本3. -/
theorem assemble_partial_transcript_correct_witness :
    assemble_partial_transcript
        [⟨true, "文本1"⟩, ⟨true, "文本2"⟩, ⟨true, "文本3"⟩,
          ⟨false, ""⟩, ⟨false, ""⟩]
      = "文本1 文本2 文本3" := by
  have h := (assemble_partial_transcript_correct []
    [⟨true, "文本1"⟩, ⟨true, "文本2"⟩, ⟨true, "文本3"⟩]
    [⟨false, ""⟩, ⟨false, ""⟩]).2.2 (by decide) (by decide)
  exact h.trans (by decide)

/-- TaskStatus.values embeds TaskStatus.values() (src/db/database.py): the
six legal task status strings, in declaration order. -/
def TaskStatus.values : List String :=
  ["waiting", "downloading", "transcribing", "summarizing", "completed",
    "failed"]

/-- Embeds _validate_status (src/db/database.py): returns the status
unchanged when legal, otherwise raises ValueError (whose Python message also
lists the legal values) before any database access. -/
def _validate_status (status : String) : Except String String :=
  if status ∈ TaskStatus.values then .ok status
  else .error ("非法状态值: " ++ status)

/-- TaskRow is one row of the tasks table, restricted to the fields the
status-validity claim concerns. -/
structure TaskRow where
  id : Nat
  bilibili_url : String
  video_title : String
  status : String
deriving DecidableEq, Repr

/-- Embeds create_task (src/db/database.py): validate the status first
(raising before the INSERT on an illegal one), then insert the new row and
return its autoincremented id. -/
def create_task (db : List TaskRow) (url title status : String) :
    Except String (List TaskRow × Nat) :=
  match _validate_status status with
  | .error e => .error e
  | .ok ns =>
    let newId := db.length + 1
    .ok (db ++ [⟨newId, url, title, ns⟩], newId)

/-- Embeds update_task_status (src/db/database.py): validate the status
first (raising before the UPDATE on an illegal one), then set the status of
the row with the given id. -/
def update_task_status (db : List TaskRow) (taskId : Nat) (status : String) :
    Except String (List TaskRow) :=
  match _validate_status status with
  | .error e => .error e
  | .ok ns =>
    .ok (db.map (fun row => if row.id = taskId then { row with status := ns }
      else row))

/-- statusInvariant db says every stored task status is one of the six
enumerated values. -/
def statusInvariant (db : List TaskRow) : Prop :=
  ∀ row ∈ db, row.status ∈ TaskStatus.values

/-- C10: status validity — create_task and update_task_status reject any
status outside the six enumerated values with ValueError before touching the
database, and when they succeed they preserve the invariant that every
stored status is one of the six values. -/
theorem task_status_validity (db : List TaskRow) (url title s : String)
    (tid : Nat) :
    (s ∉ TaskStatus.values →
      create_task db url title s = .error ("非法状态值: " ++ s) ∧
      update_task_status db tid s = .error ("非法状态值: " ++ s)) ∧
    (statusInvariant db → ∀ db' newId,
      create_task db url title s = .ok (db', newId) → statusInvariant db') ∧
    (statusInvariant db → ∀ db',
      update_task_status db tid s = .ok db' → statusInvariant db') := by
  refine ⟨?_, ?_, ?_⟩
  · intro hs
    unfold create_task update_task_status _validate_status
    rw [if_neg hs]
    exact ⟨rfl, rfl⟩
  · intro hinv db' newId hok
    unfold create_task _validate_status at hok
    by_cases hs : s ∈ TaskStatus.values
    · rw [if_pos hs] at hok
      cases hok
      intro row hrow
      rcases List.mem_append.mp hrow with hmem | hmem
      · exact hinv row hmem
      · rw [List.mem_singleton] at hmem
        subst hmem
        exact hs
    · rw [if_neg hs] at hok
      simp at hok
  · intro hinv db' hok
    unfold update_task_status _validate_status at hok
    by_cases hs : s ∈ TaskStatus.values
    · rw [if_pos hs] at hok
      cases hok
      intro row hrow
      rw [List.mem_map] at hrow
      obtain ⟨r0, hr0, rfl⟩ := hrow
      by_cases hid : r0.id = tid
      · rw [if_pos hid]
        exact hs
      · rw [if_neg hid]
        exact hinv r0 hr0
    · rw [if_neg hs] at hok
      simp at hok

/-- Witness for C10: an illegal status bogus is rejected, and a legal
creation preserves the invariant. -/
theorem task_status_validity_witness :
    create_task [] "u" "t" "bogus" = .error "非法状态值: bogus" ∧
    statusInvariant [⟨1, "u", "t", "waiting"⟩] := by
  have h1 := ((task_status_validity [] "u" "t" "bogus" 0).1 (by decide)).1
  have h2 := (task_status_validity [] "u" "t" "waiting" 0).2.1
    (by simp [statusInvariant]) [⟨1, "u", "t", "waiting"⟩] 1 (by decide)
  exact ⟨h1.trans (by decide), h2⟩
